import Mathlib

/-!
Shallow embedding of the SwopTrader API server (`server.js`, offer-notification
snapshot) in Lean 4.  The JavaScript source is translated construct by
construct: JS strings become `String`, JS arrays become `List`, truthiness of a
string is the test against `""`, possibly-`undefined` string arguments become
`Option String`, dates become an abstract `Nat` clock passed explicitly, and
the Firebase messaging transport becomes an explicit environment record whose
`send` field models `messaging.sendEachForMulticast` and whose `configured`
field models whether `getFirebaseMessaging()` returned a client.  Fallible
operations return `Except String`; the list of messages actually handed to the
provider is returned alongside each result so that "nothing was sent" is a
provable statement.
-/

namespace SwopTrader

/-- JS `x || d` for a possibly-undefined string `x`: both `undefined` and the
empty string are falsy and select the default. -/
def jsOr (x : Option String) (d : String) : String :=
  match x with
  | some s => if s = "" then d else s
  | none => d

/-- Truthiness filter for a possibly-undefined string: `undefined` and `""`
are falsy and collapse to `none`. -/
def truthy (x : Option String) : Option String :=
  match x with
  | some s => if s = "" then none else some s
  | none => none

/-- A JS value as it may appear in a notification `data` object: `undefined`,
`null`, or a string. -/
inductive JsVal where
  | undef
  | nullv
  | str (s : String)
deriving DecidableEq, Repr

/-- The coercion applied by `buildDataPayload` to one value:
`value === undefined || value === null ? '' : String(value)`. -/
def jsValToString : JsVal → String
  | .undef => ""
  | .nullv => ""
  | .str s => s

/-- `buildDataPayload` (server.js lines 83-88): coerce every value of the data
object to a string, mapping `undefined`/`null` to `''`.  Objects are modelled
as association lists in insertion order. -/
def buildDataPayload (data : List (String × JsVal)) : List (String × String) :=
  data.map (fun p => (p.1, jsValToString p.2))

/-- JS `s.trim()`: drop leading and trailing whitespace, modelled on the
character list. -/
def jsTrim (s : String) : String :=
  String.mk (((s.toList.dropWhile (fun c => c.isWhitespace)).reverse.dropWhile
    (fun c => c.isWhitespace)).reverse)

/-- JS `s.substring(0, n)`: the first `n` characters. -/
def jsTake (s : String) (n : Nat) : String :=
  String.mk (s.toList.take n)

/-- JS `haystack.includes(needle)` on strings: substring containment. -/
def strIncludes (s pat : String) : Bool :=
  decide (pat.toList <:+: s.toList)

/-- `[...new Set(l)]`: deduplication keeping the first occurrence of each
element, via an accumulator of already-seen elements. -/
def jsDedupAux (seen : List String) : List String → List String
  | [] => []
  | t :: ts => if t ∈ seen then jsDedupAux seen ts else t :: jsDedupAux (t :: seen) ts

/-- `[...new Set(l)]` with an empty starting set. -/
def jsDedup (l : List String) : List String :=
  jsDedupAux [] l

/-- The batching loop of `sendPushNotification` (lines 101-105):
`for (let i = 0; i < tokens.length; i += 500) batches.push(tokens.slice(i, i + 500))`,
written as structural recursion on the remaining suffix. -/
def chunk500 : List String → List (List String)
  | [] => []
  | t :: ts => ((t :: ts).take 500) :: chunk500 ((t :: ts).drop 500)
termination_by l => l.length
decreasing_by
  simp only [List.length_drop, List.length_cons]
  omega

/-- One entry of `response.responses` from `sendEachForMulticast`: a success
flag and, on failure, the error code (`result.error?.code || ''`). -/
structure SendResult where
  success : Bool
  errorCode : String
deriving DecidableEq, Repr

/-- The provider's reply for one batch. -/
structure BatchResponse where
  successCount : Nat
  failureCount : Nat
  responses : List SendResult
deriving DecidableEq, Repr

/-- The aggregate result `{successCount, failureCount, invalidTokens}` of
`sendPushNotification`. -/
structure PushResult where
  successCount : Nat
  failureCount : Nat
  invalidTokens : List String
deriving DecidableEq, Repr

/-- The notification block `{title, body}` of a push message. -/
structure Notification where
  title : String
  body : String
deriving DecidableEq, Repr

/-- One message as handed to `messaging.sendEachForMulticast`: the batch of
tokens, the notification, the string-coerced data payload, and the
platform-specific options filled in by `sendPushNotification`. -/
structure SentMessage where
  tokens : List String
  notification : Notification
  data : List (String × String)
  channelId : String
  tag : Option String
  apnsCategory : String
deriving DecidableEq, Repr

/-- The `android` options argument of `sendPushNotification`. -/
structure AndroidOpts where
  channelId : Option String
  tag : Option String
  apnsCategory : Option String
deriving DecidableEq, Repr

/-- The argument object of `sendPushNotification`. -/
structure PushArgs where
  tokens : List String
  notification : Notification
  data : List (String × JsVal)
  android : AndroidOpts
deriving Repr

/-- The Firebase environment: whether `getFirebaseMessaging()` yields a
client, the provider behaviour for one multicast call, and whether the
token-pruning database write rejects. -/
structure FcmEnv where
  configured : Bool
  send : List String → BatchResponse
  pruneFails : Bool

/-- The error-code test of lines 143-146: the code contains
`registration-token-not-registered` or `invalid-registration-token`. -/
def isInvalidCode (errorCode : String) : Bool :=
  strIncludes errorCode "registration-token-not-registered" ||
    strIncludes errorCode "invalid-registration-token"

/-- Lines 140-150: walk the per-recipient responses of one batch (paired with
the batch tokens by index) and collect the tokens whose delivery failed with a
permanently-invalid error code. -/
def collectInvalid (batch : List String) (responses : List SendResult) : List String :=
  ((responses.zip batch).filter (fun p => !p.1.success && isInvalidCode p.1.errorCode)).map
    (fun p => p.2)

/-- Build the `SentMessage` for one batch from the `sendPushNotification`
arguments (lines 112-135), applying the JS `||` defaults for the android
channel id and the APNs category. -/
def buildMessage (args : PushArgs) (batch : List String) : SentMessage :=
  { tokens := batch
    notification := args.notification
    data := buildDataPayload args.data
    channelId := jsOr args.android.channelId "swoptrader_notifications"
    tag := args.android.tag
    apnsCategory := jsOr args.android.apnsCategory "SWOPTRADER_EVENT" }

/-- The sequential batch loop of lines 107-151: starting from the running
totals `acc`, send each batch in order, add its success/failure counts and
append its invalid tokens, and record each message handed to the provider. -/
def runBatches (send : List String → BatchResponse) (build : List String → SentMessage)
    (acc : PushResult) : List (List String) → PushResult × List SentMessage
  | [] => (acc, [])
  | b :: rest =>
    let resp := send b
    let out := runBatches send build
      { successCount := acc.successCount + resp.successCount
        failureCount := acc.failureCount + resp.failureCount
        invalidTokens := acc.invalidTokens ++ collectInvalid b resp.responses } rest
    (out.1, build b :: out.2)

/-- `sendPushNotification` (lines 90-154): fail if the transport is not
configured; drop falsy tokens and deduplicate; return the zero result if no
tokens remain; otherwise split into batches of 500 and run the batch loop.
The second component of the `ok` payload is the trace of messages handed to
the provider. -/
def sendPushNotification (env : FcmEnv) (args : PushArgs) :
    Except String (PushResult × List SentMessage) :=
  if env.configured = false then
    .error "Firebase messaging is not configured"
  else
    let uniqueTokens := jsDedup (args.tokens.filter (fun t => !(t = "")))
    if uniqueTokens.isEmpty then
      .ok ({ successCount := 0, failureCount := 0, invalidTokens := [] }, [])
    else
      .ok (runBatches env.send (buildMessage args)
        { successCount := 0, failureCount := 0, invalidTokens := [] }
        (chunk500 uniqueTokens))

/-- A User document, restricted to the fields the notification pipeline and
the token-registration route read or write.  `deviceTokens` (a Mongo `Map`) is
an association list in insertion order; dates are `Nat` ticks. -/
structure UserRec where
  id : String
  name : String
  email : String
  fcmTokens : List String
  deviceTokens : List (String × String)
  updatedAt : Nat
  lastActive : Nat
deriving DecidableEq, Repr

/-- An Item document with every field of `itemSchema`. -/
structure ItemRec where
  id : String
  name : String
  description : String
  category : String
  condition : String
  images : List String
  ownerId : String
  isAvailable : Bool
  createdAt : Nat
  updatedAt : Nat
deriving DecidableEq, Repr

/-- An Offer document, restricted to the fields `queueOfferNotificationForOffer`
reads. -/
structure OfferRec where
  id : String
  fromUserId : String
  toUserId : String
  requestedItemId : String
  message : Option String
deriving DecidableEq, Repr

/-- `updateOne` / `findOneAndUpdate` update semantics: apply `f` to the first
element satisfying `p`, leave everything else untouched. -/
def updateFirst (p : α → Bool) (f : α → α) : List α → List α
  | [] => []
  | x :: xs => if p x then f x :: xs else x :: updateFirst p f xs

/-- `User.findOne({id: userId})`. -/
def findUser (db : List UserRec) (userId : String) : Option UserRec :=
  db.find? (fun u => u.id = userId)

/-- `Item.findOne({id: itemId})`. -/
def findItem (db : List ItemRec) (itemId : String) : Option ItemRec :=
  db.find? (fun i => i.id = itemId)

/-- `removeInvalidTokens` (lines 289-305): no-op on an empty token list;
`User.updateOne({id}, {$pull: {fcmTokens: {$in: invalidTokens}}, $set:
{updatedAt: now}})` otherwise.  A rejected write (`pruneFails`) is caught and
logged, leaving the database unchanged. -/
def removeInvalidTokens (db : List UserRec) (pruneFails : Bool) (userId : String)
    (invalidTokens : List String) (now : Nat) : List UserRec :=
  if invalidTokens.isEmpty then db
  else if pruneFails then db
  else
    updateFirst (fun u => u.id = userId)
      (fun u =>
        { u with
          fcmTokens := u.fcmTokens.filter (fun t => !(invalidTokens.contains t))
          updatedAt := now })
      db

/-- The argument object of `sendOfferNotification`; the optional arguments
may be `undefined`. -/
structure NotifArgs where
  offerId : String
  recipientUserId : String
  senderUserId : String
  senderName : Option String
  itemName : Option String
  message : Option String
deriving Repr

/-- The notification body of line 327:
`(message && message.trim().substring(0, 140)) || 'New pitch on ' + (itemName || 'your listing')`.
A falsy message, and a message that trims to the empty string, both fall back. -/
def offerBody (message : Option String) (itemName : Option String) : String :=
  let fallback := "New pitch on " ++ jsOr itemName "your listing"
  match message with
  | none => fallback
  | some m =>
    if m = "" then fallback
    else
      let t := jsTake (jsTrim m) 140
      if t = "" then fallback else t

/-- Either return value of `sendOfferNotification`: the early
`{skipped: true, reason}` object or the `sendPushNotification` result. -/
inductive OfferNotifResult where
  | skipped (reason : String)
  | sent (r : PushResult)
deriving DecidableEq, Repr

/-- The `sendPushNotification` argument object built by
`sendOfferNotification` (lines 323-343): the resolved sender name in the
title, the body with its truncation/fallback, the string-valued offer
metadata in declaration order, and the offer-specific android options. -/
def offerPushArgs (a : NotifArgs) (tokens : List String) : PushArgs :=
  let resolvedSenderName := jsOr a.senderName "A SwopTrader user"
  { tokens := tokens
    notification :=
      { title := resolvedSenderName ++ " sent you an offer"
        body := offerBody a.message a.itemName }
    data :=
      [("type", .str "offer"),
       ("offerId", .str a.offerId),
       ("senderUserId", .str a.senderUserId),
       ("senderName", .str resolvedSenderName),
       ("recipientUserId", .str a.recipientUserId),
       ("itemName", .str (jsOr a.itemName "")),
       ("message", .str (jsOr a.message ""))]
    android :=
      { channelId := some "swoptrader_offers"
        tag := some ("offer_" ++ a.offerId)
        apnsCategory := some "SWOPTRADER_OFFER" } }

/-- `sendOfferNotification` (lines 307-350): resolve the sender name, read the
recipient's truthy tokens, skip when there are none, otherwise push with the
offer payload, prune any invalid tokens, and return the push result.  Returns
the user table after pruning, the result (or the propagated exception), and
the trace of messages handed to the provider. -/
def sendOfferNotification (env : FcmEnv) (db : List UserRec) (a : NotifArgs) (now : Nat) :
    List UserRec × Except String OfferNotifResult × List SentMessage :=
  let recipient := findUser db a.recipientUserId
  let recipientTokens :=
    match recipient with
    | some u => u.fcmTokens.filter (fun t => !(t = ""))
    | none => []
  if recipientTokens.isEmpty then
    (db, .ok (.skipped "no_tokens"), [])
  else
    match sendPushNotification env (offerPushArgs a recipientTokens) with
    | .error e => (db, .error e, [])
    | .ok (r, trace) =>
      let db' :=
        if r.invalidTokens.isEmpty then db
        else removeInvalidTokens db env.pruneFails a.recipientUserId r.invalidTokens now
      (db', .ok (.sent r), trace)

/-- `queueOfferNotificationForOffer` (lines 352-374): return early on a
missing offer; look up the sender's name and the requested item's name; call
`sendOfferNotification`; catch and log any failure.  The returned user table
is the post-dispatch table; the function itself never fails. -/
def queueOfferNotificationForOffer (env : FcmEnv) (users : List UserRec)
    (items : List ItemRec) (offer : Option OfferRec) (now : Nat) : List UserRec :=
  match offer with
  | none => users
  | some o =>
    let sender := findUser users o.fromUserId
    let requestedItem := findItem items o.requestedItemId
    let out := sendOfferNotification env users
      { offerId := o.id
        recipientUserId := o.toUserId
        senderUserId := o.fromUserId
        senderName := some (jsOr (sender.map (fun u => u.name)) "A SwopTrader user")
        itemName := some (jsOr (requestedItem.map (fun i => i.name)) "")
        message := some (jsOr o.message "") } now
    out.1

/-- An HTTP response for the offer-creation route: the status code and, on
success, the saved offer. -/
structure OfferCreateResponse where
  status : Nat
  body : Option OfferRec
deriving DecidableEq, Repr

/-- `POST /api/v1/offers` (lines 744-753): if the save rejects, respond 500;
otherwise fire off `queueOfferNotificationForOffer` (not awaited, its outcome
discarded) and respond `201` with the saved offer.  The persistence write is
modelled by its outcome `saveResult`. -/
def createOfferHandler (env : FcmEnv) (users : List UserRec) (items : List ItemRec)
    (saveResult : Except String OfferRec) (now : Nat) :
    List UserRec × OfferCreateResponse :=
  match saveResult with
  | .error _ => (users, { status := 500, body := none })
  | .ok offer =>
    let users' := queueOfferNotificationForOffer env users items (some offer) now
    (users', { status := 201, body := some offer })

/-- Mongo `$addToSet` on an array field: append the value if and only if it is
not already present. -/
def addToSet (l : List String) (v : String) : List String :=
  if v ∈ l then l else l ++ [v]

/-- Mongo `$set` on one key of a `Map` field: overwrite the entry with that
key if present, append a new entry otherwise. -/
def assocSet (m : List (String × String)) (k v : String) : List (String × String) :=
  if m.any (fun p => p.1 = k) then
    m.map (fun p => if p.1 = k then (k, v) else p)
  else m ++ [(k, v)]

/-- An HTTP response for the token-registration route: the status code and,
on success, the `tokens` array echoed in the body. -/
structure TokenRegResponse where
  status : Nat
  tokens : Option (List String)
deriving DecidableEq, Repr

/-- The update document of the token-registration route applied to one user:
`$addToSet` of the token, the per-device entry when a device id is given, and
the two timestamps. -/
def applyTokenRegistration (tok : String) (deviceId : Option String) (now : Nat)
    (u : UserRec) : UserRec :=
  { u with
    fcmTokens := addToSet u.fcmTokens tok
    deviceTokens :=
      match truthy deviceId with
      | some d => assocSet u.deviceTokens d tok
      | none => u.deviceTokens
    updatedAt := now
    lastActive := now }

/-- `POST /api/v1/notifications/token` (lines 495-546): 400 when `userId` or
`token` is falsy; otherwise `findOneAndUpdate({id: userId})` with
`$addToSet: {fcmTokens: token}`, `$set` of the timestamps, and, when
`deviceId` is truthy, `$set: {deviceTokens.<deviceId>: token}`; 404 when no
user matches; 200 with the updated token list otherwise. -/
def registerTokenHandler (db : List UserRec) (userId token deviceId : Option String)
    (now : Nat) : List UserRec × TokenRegResponse :=
  match truthy userId, truthy token with
  | some uid, some tok =>
    match findUser db uid with
    | none => (db, { status := 404, tokens := none })
    | some _ =>
      let db' := updateFirst (fun u => u.id = uid) (applyTokenRegistration tok deviceId now) db
      (db', { status := 200, tokens := (findUser db' uid).map (fun u => u.fcmTokens) })
  | _, _ => (db, { status := 400, tokens := none })

/-- An HTTP response carrying an optional item document. -/
structure ItemResponse where
  status : Nat
  body : Option ItemRec
deriving DecidableEq, Repr

/-- The update document of the item-deletion route applied to one item:
`{isAvailable: false, updatedAt: now}`. -/
def markItemUnavailable (now : Nat) (i : ItemRec) : ItemRec :=
  { i with isAvailable := false, updatedAt := now }

/-- `DELETE /api/v1/items/:itemId` (lines 680-694):
`findOneAndUpdate({id}, {isAvailable: false, updatedAt: now}, {new: true})`;
404 when no item matches, otherwise 200 with the updated document. -/
def deleteItemHandler (db : List ItemRec) (itemId : String) (now : Nat) :
    List ItemRec × ItemResponse :=
  match findItem db itemId with
  | none => (db, { status := 404, body := none })
  | some _ =>
    let db' := updateFirst (fun i => i.id = itemId) (markItemUnavailable now) db
    (db', { status := 200, body := findItem db' itemId })

/-- Case-insensitive substring match, modelling `$regex` with option `i` as it
is used by the item search (plain substring patterns). -/
def strIncludesCI (s pat : String) : Bool :=
  strIncludes s.toLower pat.toLower

/-- The Mongo query object built by `GET /api/v1/items` (lines 608-618):
`isAvailable: true` always, plus the optional additive category, search
(name-or-description), and owner filters. -/
def itemMatchesQuery (category search ownerId : Option String) (it : ItemRec) : Bool :=
  it.isAvailable &&
    (match truthy category with
     | some c => it.category = c
     | none => true) &&
    (match truthy search with
     | some s => strIncludesCI it.name s || strIncludesCI it.description s
     | none => true) &&
    (match truthy ownerId with
     | some o => it.ownerId = o
     | none => true)

/-- The document list returned by `GET /api/v1/items` (lines 620-623): filter
by the query, sort by `createdAt` descending, then apply
`skip((page-1)*limit)` and `limit(limit)`. -/
def listItemsData (db : List ItemRec) (category search ownerId : Option String)
    (page limit : Nat) : List ItemRec :=
  let filtered := db.filter (itemMatchesQuery category search ownerId)
  let sorted := filtered.mergeSort (fun a b => decide (b.createdAt ≤ a.createdAt))
  (sorted.drop ((page - 1) * limit)).take limit

/-- `getRawFirebaseCredential` (line 33):
`process.env.FIREBASE_SERVICE_ACCOUNT_JSON || process.env.FIREBASE_SERVICE_ACCOUNT`. -/
def getRawFirebaseCredential (envJson envPlain : Option String) : Option String :=
  match truthy envJson with
  | some s => some s
  | none => truthy envPlain

/-- `parseFirebaseCredential` (lines 35-52): nothing to parse when the raw
value is falsy; otherwise try `JSON.parse(raw)` and, if that throws, try
`JSON.parse(base64decode(raw))`; if both fail the credential is `null`.  The
JSON parser and the base64 decoder are environment parameters. -/
def parseFirebaseCredential (jsonParse : String → Option α) (b64decode : String → String)
    (envJson envPlain : Option String) : Option α :=
  match getRawFirebaseCredential envJson envPlain with
  | none => none
  | some raw =>
    match jsonParse raw with
    | some c => some c
    | none => jsonParse (b64decode raw)

/-- The transport environment induced by the credential bootstrap
(lines 54-81): the transport is configured exactly when the credential
parses. -/
def mkFcmEnv (jsonParse : String → Option α) (b64decode : String → String)
    (envJson envPlain : Option String) (send : List String → BatchResponse)
    (pruneFails : Bool) : FcmEnv :=
  { configured := (parseFirebaseCredential jsonParse b64decode envJson envPlain).isSome
    send := send
    pruneFails := pruneFails }

/-- The batches `sendPushNotification` builds from a token list: truthy
filter, then dedup, then chunks of 500. -/
def pushBatches (tokens : List String) : List (List String) :=
  chunk500 (jsDedup (tokens.filter (fun t => !(t = ""))))

/-- A provider that delivers to every token except `bad`, which it rejects
with the `registration-token-not-registered` error code. -/
def failOnProvider (bad : String) : List String → BatchResponse :=
  fun batch =>
    let rs := batch.map (fun tok =>
      if tok = bad then SendResult.mk false "messaging/registration-token-not-registered"
      else SendResult.mk true "")
    { successCount := (rs.filter (fun r => r.success)).length
      failureCount := (rs.filter (fun r => !r.success)).length
      responses := rs }

/-! ### Lemmas about deduplication, chunking and the batch loop -/

theorem mem_jsDedupAux {x : String} :
    ∀ {l seen : List String}, x ∈ jsDedupAux seen l ↔ x ∈ l ∧ x ∉ seen := by
  intro l
  induction l with
  | nil => intro seen; simp [jsDedupAux]
  | cons t ts ih =>
    intro seen
    by_cases h : t ∈ seen
    · rw [jsDedupAux, if_pos h, ih]
      constructor
      · rintro ⟨hx, hs⟩
        exact ⟨List.mem_cons_of_mem _ hx, hs⟩
      · rintro ⟨hx, hs⟩
        rcases List.mem_cons.mp hx with rfl | hx
        · exact absurd h hs
        · exact ⟨hx, hs⟩
    · rw [jsDedupAux, if_neg h]
      constructor
      · intro hx
        rcases List.mem_cons.mp hx with rfl | hx
        · exact ⟨List.mem_cons_self _ _, h⟩
        · rcases ih.mp hx with ⟨hmem, hns⟩
          refine ⟨List.mem_cons_of_mem _ hmem, fun hs => hns ?_⟩
          exact List.mem_cons_of_mem _ hs
      · rintro ⟨hx, hs⟩
        rcases List.mem_cons.mp hx with rfl | hx
        · exact List.mem_cons_self _ _
        · by_cases hxt : x = t
          · subst hxt; exact List.mem_cons_self _ _
          · refine List.mem_cons_of_mem _ (ih.mpr ⟨hx, ?_⟩)
            intro hmem
            rcases List.mem_cons.mp hmem with h1 | h1
            · exact hxt h1
            · exact hs h1

theorem mem_jsDedup {x : String} {l : List String} : x ∈ jsDedup l ↔ x ∈ l := by
  rw [jsDedup, mem_jsDedupAux]
  simp

theorem nodup_jsDedupAux : ∀ (l seen : List String), (jsDedupAux seen l).Nodup := by
  intro l
  induction l with
  | nil => intro seen; simp [jsDedupAux]
  | cons t ts ih =>
    intro seen
    by_cases h : t ∈ seen
    · rw [jsDedupAux, if_pos h]; exact ih seen
    · rw [jsDedupAux, if_neg h]
      refine List.nodup_cons.mpr ⟨fun hmem => ?_, ih (t :: seen)⟩
      exact (mem_jsDedupAux.mp hmem).2 (List.mem_cons_self _ _)

theorem nodup_jsDedup (l : List String) : (jsDedup l).Nodup :=
  nodup_jsDedupAux l []

theorem jsDedupAux_eq_self :
    ∀ {l seen : List String}, l.Nodup → (∀ t ∈ l, t ∉ seen) → jsDedupAux seen l = l := by
  intro l
  induction l with
  | nil => intro seen _ _; rfl
  | cons t ts ih =>
    intro seen hnd hdisj
    rw [jsDedupAux, if_neg (hdisj t (List.mem_cons_self _ _))]
    congr 1
    refine ih (List.nodup_cons.mp hnd).2 ?_
    intro x hx hmem
    rcases List.mem_cons.mp hmem with rfl | h1
    · exact (List.nodup_cons.mp hnd).1 hx
    · exact hdisj x (List.mem_cons_of_mem _ hx) h1

theorem jsDedup_eq_self {l : List String} (h : l.Nodup) : jsDedup l = l :=
  jsDedupAux_eq_self h (by simp)

theorem chunk500_flatten : ∀ l : List String, (chunk500 l).flatten = l := by
  intro l
  induction l using chunk500.induct with
  | case1 => rw [chunk500]; rfl
  | case2 t ts ih =>
    rw [chunk500, List.flatten_cons, ih, List.take_append_drop]

theorem chunk500_length_le {l b : List String} (h : b ∈ chunk500 l) : b.length ≤ 500 := by
  induction l using chunk500.induct with
  | case1 => rw [chunk500] at h; simp at h
  | case2 t ts ih =>
    rw [chunk500] at h
    rcases List.mem_cons.mp h with rfl | h1
    · rw [List.length_take]
      exact min_le_left _ _
    · exact ih h1

theorem chunk500_map_length_of_501 {l : List String} (h : l.length = 501) :
    (chunk500 l).map List.length = [500, 1] := by
  match l, h with
  | t :: ts, h =>
    have hts : ts.length = 500 := by
      simpa using h
    rw [chunk500]
    have hdrop : (List.drop 500 (t :: ts)).length = 1 := by
      rw [List.length_drop, h]
    match hd : List.drop 500 (t :: ts), hdrop with
    | [d], _ =>
      rw [chunk500]
      have hnil : List.drop 500 [d] = [] := List.drop_eq_nil_of_le (by simp)
      rw [hnil, chunk500]
      simp only [List.map_cons, List.map_nil, List.length_take, List.length_cons, hts]
      norm_num

theorem runBatches_spec (send : List String → BatchResponse)
    (build : List String → SentMessage) :
    ∀ (bs : List (List String)) (acc : PushResult),
      runBatches send build acc bs =
        ({ successCount := acc.successCount + (bs.map (fun b => (send b).successCount)).sum
           failureCount := acc.failureCount + (bs.map (fun b => (send b).failureCount)).sum
           invalidTokens :=
             acc.invalidTokens ++
               (bs.map (fun b => collectInvalid b (send b).responses)).flatten },
         bs.map build) := by
  intro bs
  induction bs with
  | nil => intro acc; simp [runBatches]
  | cons b rest ih =>
    intro acc
    rw [runBatches, ih]
    simp [Nat.add_assoc, List.append_assoc]

/-- The aggregate over a batch list of one provider's per-batch responses:
summed success and failure counts and concatenated invalid tokens. -/
def aggregateResult (send : List String → BatchResponse) (bs : List (List String)) :
    PushResult :=
  { successCount := (bs.map (fun b => (send b).successCount)).sum
    failureCount := (bs.map (fun b => (send b).failureCount)).sum
    invalidTokens := (bs.map (fun b => collectInvalid b (send b).responses)).flatten }

/-- Characterization of `sendPushNotification` on a configured transport: the
result aggregates the per-batch counts and concatenates the per-batch invalid
tokens over `pushBatches`, and exactly one message per batch is handed to the
provider. -/
theorem sendPushNotification_ok (env : FcmEnv) (args : PushArgs)
    (h : env.configured = true) :
    sendPushNotification env args =
      .ok (aggregateResult env.send (pushBatches args.tokens),
           (pushBatches args.tokens).map (buildMessage args)) := by
  rw [sendPushNotification, h]
  simp only [Bool.true_eq_false, if_false]
  by_cases hempty : (jsDedup (args.tokens.filter (fun t => !(t = "")))).isEmpty
  · rw [if_pos hempty]
    rw [List.isEmpty_iff] at hempty
    rw [pushBatches, hempty, chunk500]
    rfl
  · rw [if_neg hempty, runBatches_spec, pushBatches, aggregateResult]
    simp

/-! ### Lemmas about document updates and the invalid-token bookkeeping -/

theorem find?_updateFirst (p : α → Bool) (f : α → α) (hpf : ∀ y, p (f y) = p y) :
    ∀ {l : List α} {x : α}, l.find? p = some x → (updateFirst p f l).find? p = some (f x) := by
  intro l
  induction l with
  | nil => intro x h; simp [List.find?] at h
  | cons a as ih =>
    intro x h
    by_cases hpa : p a = true
    · rw [List.find?_cons, hpa] at h
      cases h
      rw [updateFirst, if_pos hpa, List.find?_cons, hpf a, hpa]
    · rw [List.find?_cons] at h
      rw [Bool.not_eq_true] at hpa
      rw [hpa] at h
      rw [updateFirst]
      rw [if_neg (by rw [hpa]; exact Bool.false_ne_true)]
      rw [List.find?_cons, hpa]
      exact ih h

theorem mem_updateFirst {p : α → Bool} {f : α → α} :
    ∀ {l : List α} {y : α}, y ∈ updateFirst p f l →
      y ∈ l ∨ ∃ x, x ∈ l ∧ p x = true ∧ y = f x := by
  intro l
  induction l with
  | nil => intro y h; rw [updateFirst] at h; simp at h
  | cons a as ih =>
    intro y h
    by_cases hpa : p a = true
    · rw [updateFirst, if_pos hpa] at h
      rcases List.mem_cons.mp h with rfl | h1
      · exact Or.inr ⟨a, List.mem_cons_self _ _, hpa, rfl⟩
      · exact Or.inl (List.mem_cons_of_mem _ h1)
    · rw [updateFirst, if_neg hpa] at h
      rcases List.mem_cons.mp h with rfl | h1
      · exact Or.inl (List.mem_cons_self _ _)
      · rcases ih h1 with h2 | ⟨x, hx, hpx, hy⟩
        · exact Or.inl (List.mem_cons_of_mem _ h2)
        · exact Or.inr ⟨x, List.mem_cons_of_mem _ hx, hpx, hy⟩

theorem mem_addToSet_self (l : List String) (v : String) : v ∈ addToSet l v := by
  rw [addToSet]
  by_cases h : v ∈ l
  · rw [if_pos h]; exact h
  · rw [if_neg h]; simp

theorem mem_addToSet_of_mem {l : List String} {x : String} (v : String) (h : x ∈ l) :
    x ∈ addToSet l v := by
  rw [addToSet]
  by_cases hv : v ∈ l
  · rw [if_pos hv]; exact h
  · rw [if_neg hv]; exact List.mem_append_left _ h

theorem addToSet_of_mem {l : List String} {v : String} (h : v ∈ l) : addToSet l v = l := by
  rw [addToSet, if_pos h]

theorem count_addToSet_of_not_mem {l : List String} {v : String} (h : v ∉ l) :
    (addToSet l v).count v = 1 := by
  rw [addToSet, if_neg h, List.count_append, List.count_eq_zero.mpr h]
  simp

theorem assocSet_of_no_key {m : List (String × String)} {k v : String}
    (h : ∀ p ∈ m, ¬(p.1 = k)) : assocSet m k v = m ++ [(k, v)] := by
  rw [assocSet, if_neg]
  intro hany
  rcases List.any_eq_true.mp hany with ⟨p, hp, hk⟩
  exact h p hp (by simpa using hk)

theorem assocSet_overwrite {m : List (String × String)} {k v v' : String}
    (h : ∀ p ∈ m, ¬(p.1 = k)) :
    assocSet (m ++ [(k, v)]) k v' = m ++ [(k, v')] := by
  rw [assocSet, if_pos]
  · rw [List.map_append]
    congr 1
    · refine (List.map_congr_left ?_).trans (List.map_id m)
      intro p hp
      rw [if_neg (h p hp)]
      rfl
    · simp
  · exact List.any_eq_true.mpr ⟨(k, v), by simp, by simp⟩

theorem filter_key_append_single {m : List (String × String)} {k v : String}
    (h : ∀ p ∈ m, ¬(p.1 = k)) :
    (m ++ [(k, v)]).filter (fun p => p.1 = k) = [(k, v)] := by
  rw [List.filter_append]
  rw [List.filter_eq_nil_iff.mpr (by intro p hp; simpa using h p hp)]
  simp

theorem nodup_filter_eq_singleton {l : List String} {a : String}
    (hnd : l.Nodup) (ha : a ∈ l) : l.filter (fun t => t = a) = [a] := by
  induction l with
  | nil => simp at ha
  | cons x xs ih =>
    rcases List.mem_cons.mp ha with rfl | h1
    · rw [List.filter_cons, if_pos (by simp)]
      rw [List.filter_eq_nil_iff.mpr ?_]
      intro t ht
      simp only [decide_eq_true_eq]
      intro heq
      subst heq
      exact (List.nodup_cons.mp hnd).1 ht
    · rw [List.filter_cons, if_neg ?_]
      · exact ih (List.nodup_cons.mp hnd).2 h1
      · simp only [decide_eq_true_eq]
        intro heq
        subst heq
        exact (List.nodup_cons.mp hnd).1 h1

theorem flatten_map_filter (p : String → Bool) :
    ∀ L : List (List String), (L.map (fun l => l.filter p)).flatten = L.flatten.filter p := by
  intro L
  induction L with
  | nil => rfl
  | cons l ls ih =>
    rw [List.map_cons, List.flatten_cons, List.flatten_cons, List.filter_append, ih]

theorem collectInvalid_failOnProvider (bad : String) (b : List String) :
    collectInvalid b (failOnProvider bad b).responses = b.filter (fun t => t = bad) := by
  rw [collectInvalid, failOnProvider]
  have hzip : (b.map (fun tok =>
      if tok = bad then SendResult.mk false "messaging/registration-token-not-registered"
      else SendResult.mk true "")).zip b =
      b.map (fun tok =>
        ((if tok = bad then SendResult.mk false "messaging/registration-token-not-registered"
          else SendResult.mk true ""), tok)) := by
    have := List.zip_map'
      (fun tok =>
        if tok = bad then SendResult.mk false "messaging/registration-token-not-registered"
        else SendResult.mk true "") id b
    rw [List.map_id] at this
    exact this
  simp only []
  rw [hzip, List.filter_map, List.map_map]
  have hfc : b.filter ((fun p : SendResult × String =>
        !p.1.success && isInvalidCode p.1.errorCode) ∘
      (fun tok =>
        ((if tok = bad then SendResult.mk false "messaging/registration-token-not-registered"
          else SendResult.mk true ""), tok))) = b.filter (fun t => t = bad) := by
    refine List.filter_congr ?_
    intro x _
    by_cases hx : x = bad
    · subst hx
      have hcode : isInvalidCode "messaging/registration-token-not-registered" = true := by decide
      simp [hcode]
    · simp [Function.comp_apply, if_neg hx, hx]
  rw [hfc]
  refine (List.map_congr_left ?_).trans (List.map_id _)
  intro x _
  rfl

/-- `sendOfferNotification` when the recipient's truthy token list is empty:
the skip result, with no database change and no provider contact. -/
theorem sendOfferNotification_skip (env : FcmEnv) (db : List UserRec) (a : NotifArgs)
    (now : Nat) (u : UserRec) (hfind : findUser db a.recipientUserId = some u)
    (hempty : (u.fcmTokens.filter (fun t => !(t = ""))).isEmpty = true) :
    sendOfferNotification env db a now = (db, .ok (.skipped "no_tokens"), []) := by
  rw [sendOfferNotification]
  simp only [hfind, hempty, if_true]

/-- `sendOfferNotification` on a configured transport when the recipient has a
nonempty truthy token list: the pushed result, the pruned user table, and one
message per batch. -/
theorem sendOfferNotification_sent (env : FcmEnv) (db : List UserRec) (a : NotifArgs)
    (now : Nat) (u : UserRec) (hfind : findUser db a.recipientUserId = some u)
    (hne : (u.fcmTokens.filter (fun t => !(t = ""))).isEmpty = false)
    (hcfg : env.configured = true) :
    sendOfferNotification env db a now =
      (let toks := u.fcmTokens.filter (fun t => !(t = ""))
       let r := aggregateResult env.send (pushBatches toks)
       ((if r.invalidTokens.isEmpty then db
         else removeInvalidTokens db env.pruneFails a.recipientUserId r.invalidTokens now),
        .ok (.sent r),
        (pushBatches toks).map (buildMessage (offerPushArgs a toks)))) := by
  have htok : ∀ (x : NotifArgs) (ts : List String), (offerPushArgs x ts).tokens = ts :=
    fun _ _ => rfl
  rw [sendOfferNotification]
  simp only [hfind, hne, Bool.false_eq_true, if_false,
    sendPushNotification_ok env _ hcfg, htok]

/-! ### Concrete fixtures used by witnesses -/

/-- A provider that accepts every token. -/
def okProvider : List String → BatchResponse :=
  fun batch =>
    { successCount := batch.length
      failureCount := 0
      responses := batch.map (fun _ => SendResult.mk true "") }

/-- A configured environment with the all-accepting provider. -/
def envOkW : FcmEnv := { configured := true, send := okProvider, pruneFails := false }

/-- An unconfigured environment. -/
def envOffW : FcmEnv := { configured := false, send := okProvider, pruneFails := false }

/-- A sample user holding one token. -/
def userAnn : UserRec :=
  { id := "u1", name := "Ann", email := "ann@example.com", fcmTokens := ["t1"]
    deviceTokens := [], updatedAt := 0, lastActive := 0 }

/-- Sample offer-notification arguments addressed to `userAnn`. -/
def argsOffer : NotifArgs :=
  { offerId := "o1", recipientUserId := "u1", senderUserId := "u2"
    senderName := some "Bob", itemName := some "Bike", message := some "hi" }

/-- Sample push arguments with a duplicated token. -/
def argsDup : PushArgs :=
  { tokens := ["a", "b", "a"]
    notification := { title := "T", body := "B" }
    data := []
    android := { channelId := none, tag := none, apnsCategory := none } }

/-- Sample push arguments whose tokens are all falsy. -/
def argsFalsy : PushArgs :=
  { tokens := ["", ""]
    notification := { title := "T", body := "B" }
    data := []
    android := { channelId := none, tag := none, apnsCategory := none } }

/-- A JSON parser that rejects every input. -/
def noParse : String → Option Nat := fun _ => none

/-! ### The claims -/

/-- C3: for every offer-notification dispatch where the recipient user's token
set is empty, the operation returns the `{skipped: true, reason: "no_tokens"}`
value, hands nothing to the push provider, and raises no error. -/
theorem offer_dispatch_empty_tokens_skips (env : FcmEnv) (db : List UserRec)
    (a : NotifArgs) (now : Nat) (u : UserRec)
    (hfind : findUser db a.recipientUserId = some u) (hempty : u.fcmTokens = []) :
    sendOfferNotification env db a now =
      (db, Except.ok (OfferNotifResult.skipped "no_tokens"), []) := by
  refine sendOfferNotification_skip env db a now u hfind ?_
  rw [hempty]
  rfl

theorem offer_dispatch_empty_tokens_skips_witness :
    sendOfferNotification envOkW [{ userAnn with fcmTokens := [] }] argsOffer 3 =
      ([{ userAnn with fcmTokens := [] }],
       Except.ok (OfferNotifResult.skipped "no_tokens"), []) :=
  offer_dispatch_empty_tokens_skips envOkW _ argsOffer 3
    { userAnn with fcmTokens := [] } rfl rfl

/-- C10: falsy entries of a stored token set are filtered out before the
emptiness check, so a recipient with only falsy tokens gets the no-tokens skip
for every environment — in particular an unconfigured one, since the no-tokens
check precedes the configuration check — and `sendPushNotification` on a
configured transport with no truthy token returns the zero result without
contacting the provider. -/
theorem falsy_tokens_filtered_before_checks :
    (∀ (env : FcmEnv) (db : List UserRec) (a : NotifArgs) (now : Nat) (u : UserRec),
       findUser db a.recipientUserId = some u →
       (∀ t ∈ u.fcmTokens, t = "") →
       sendOfferNotification env db a now =
         (db, Except.ok (OfferNotifResult.skipped "no_tokens"), [])) ∧
    (∀ (env : FcmEnv) (args : PushArgs), env.configured = true →
       (∀ t ∈ args.tokens, t = "") →
       sendPushNotification env args =
         .ok ({ successCount := 0, failureCount := 0, invalidTokens := [] }, [])) := by
  constructor
  · intro env db a now u hfind hall
    refine sendOfferNotification_skip env db a now u hfind ?_
    rw [List.filter_eq_nil_iff.mpr ?_]
    · rfl
    · intro t ht
      rw [hall t ht]
      decide
  · intro env args hcfg hall
    have hfil : args.tokens.filter (fun t => !(t = "")) = [] := by
      refine List.filter_eq_nil_iff.mpr ?_
      intro t ht
      rw [hall t ht]
      decide
    rw [sendPushNotification_ok env args hcfg, pushBatches, hfil]
    rw [show jsDedup [] = [] from rfl, chunk500]
    rfl

theorem falsy_tokens_filtered_before_checks_witness :
    (sendOfferNotification envOffW [{ userAnn with fcmTokens := ["", ""] }] argsOffer 3 =
       ([{ userAnn with fcmTokens := ["", ""] }],
        Except.ok (OfferNotifResult.skipped "no_tokens"), [])) ∧
    (sendPushNotification envOkW argsFalsy =
       .ok ({ successCount := 0, failureCount := 0, invalidTokens := [] }, [])) :=
  ⟨falsy_tokens_filtered_before_checks.1 envOffW _ argsOffer 3
     { userAnn with fcmTokens := ["", ""] } rfl (by decide),
   falsy_tokens_filtered_before_checks.2 envOkW argsFalsy rfl (by decide)⟩

/-- C2: `sendPushNotification` first deduplicates the token list (after
dropping falsy entries) and then partitions the result into consecutive
batches of at most 500, one provider message per batch; for 501 distinct
truthy tokens this yields exactly two batches of sizes 500 and 1. -/
theorem push_dedup_then_batch (env : FcmEnv) (args : PushArgs) (r : PushResult)
    (msgs : List SentMessage) (hcfg : env.configured = true)
    (hok : sendPushNotification env args = .ok (r, msgs)) :
    msgs.map (fun m => m.tokens) = pushBatches args.tokens ∧
    pushBatches args.tokens =
      chunk500 (jsDedup (args.tokens.filter (fun t => !(t = "")))) ∧
    (∀ b ∈ pushBatches args.tokens, b.length ≤ 500) ∧
    (args.tokens.Nodup → (∀ t ∈ args.tokens, ¬(t = "")) → args.tokens.length = 501 →
      (pushBatches args.tokens).map List.length = [500, 1]) := by
  refine ⟨?_, rfl, ?_, ?_⟩
  · rw [sendPushNotification_ok env args hcfg] at hok
    simp only [Except.ok.injEq, Prod.mk.injEq] at hok
    obtain ⟨-, hm⟩ := hok
    subst hm
    rw [List.map_map]
    refine (List.map_congr_left ?_).trans (List.map_id _)
    intro b _
    rfl
  · intro b hb
    exact chunk500_length_le hb
  · intro hnd hne hlen
    have hfil : args.tokens.filter (fun t => !(t = "")) = args.tokens := by
      refine List.filter_eq_self.mpr ?_
      intro t ht
      simp [hne t ht]
    rw [pushBatches, hfil, jsDedup_eq_self hnd]
    exact chunk500_map_length_of_501 hlen

theorem push_dedup_then_batch_witness :
    (((pushBatches argsDup.tokens).map (buildMessage argsDup)).map (fun m => m.tokens) =
       pushBatches argsDup.tokens) ∧
    pushBatches argsDup.tokens =
      chunk500 (jsDedup (argsDup.tokens.filter (fun t => !(t = "")))) :=
  ⟨(push_dedup_then_batch envOkW argsDup _ _ rfl
      (sendPushNotification_ok envOkW argsDup rfl)).1,
   (push_dedup_then_batch envOkW argsDup _ _ rfl
      (sendPushNotification_ok envOkW argsDup rfl)).2.1⟩

/-- C5: on a configured transport the dispatch result is exactly
`{successCount, failureCount, invalidTokens}` with the success and failure
counts summed over the per-batch responses and the invalid tokens concatenated
batch by batch. -/
theorem push_result_aggregates_batches (env : FcmEnv) (args : PushArgs)
    (hcfg : env.configured = true) :
    sendPushNotification env args =
      .ok ({ successCount :=
               ((pushBatches args.tokens).map (fun b => (env.send b).successCount)).sum
             failureCount :=
               ((pushBatches args.tokens).map (fun b => (env.send b).failureCount)).sum
             invalidTokens :=
               ((pushBatches args.tokens).map
                 (fun b => collectInvalid b (env.send b).responses)).flatten },
           (pushBatches args.tokens).map (buildMessage args)) :=
  sendPushNotification_ok env args hcfg

theorem push_result_aggregates_batches_witness :
    sendPushNotification envOkW argsDup =
      .ok ({ successCount :=
               ((pushBatches argsDup.tokens).map
                 (fun b => (envOkW.send b).successCount)).sum
             failureCount :=
               ((pushBatches argsDup.tokens).map
                 (fun b => (envOkW.send b).failureCount)).sum
             invalidTokens :=
               ((pushBatches argsDup.tokens).map
                 (fun b => collectInvalid b (envOkW.send b).responses)).flatten },
           (pushBatches argsDup.tokens).map (buildMessage argsDup)) :=
  push_result_aggregates_batches envOkW argsDup rfl

/-- C6: when no credential is available — the environment values are absent or
falsy, or the value parses neither as raw JSON nor as base64-encoded JSON —
the transport stays unconfigured and every `sendPushNotification` call fails
with the "not configured" error instead of returning any ok value; parsing
always tries the raw parse first and base64-decode-then-parse second. -/
theorem credential_bootstrap_and_not_configured (jsonParse : String → Option α)
    (b64decode : String → String) (envJson envPlain : Option String) :
    (getRawFirebaseCredential envJson envPlain = none →
       parseFirebaseCredential jsonParse b64decode envJson envPlain = none) ∧
    (∀ raw c, getRawFirebaseCredential envJson envPlain = some raw →
       jsonParse raw = some c →
       parseFirebaseCredential jsonParse b64decode envJson envPlain = some c) ∧
    (∀ raw, getRawFirebaseCredential envJson envPlain = some raw →
       jsonParse raw = none →
       parseFirebaseCredential jsonParse b64decode envJson envPlain =
         jsonParse (b64decode raw)) ∧
    (parseFirebaseCredential jsonParse b64decode envJson envPlain = none →
       ∀ (send : List String → BatchResponse) (pruneFails : Bool) (args : PushArgs),
         sendPushNotification
             (mkFcmEnv jsonParse b64decode envJson envPlain send pruneFails) args =
           .error "Firebase messaging is not configured" ∧
         ∀ x, sendPushNotification
             (mkFcmEnv jsonParse b64decode envJson envPlain send pruneFails) args ≠
           .ok x) := by
  refine ⟨?_, ?_, ?_, ?_⟩
  · intro h
    rw [parseFirebaseCredential, h]
  · intro raw c hraw hp
    rw [parseFirebaseCredential, hraw]
    simp [hp]
  · intro raw hraw hp
    rw [parseFirebaseCredential, hraw]
    simp [hp]
  · intro hnone send pf args
    have hcfg : (mkFcmEnv jsonParse b64decode envJson envPlain send pf).configured = false := by
      simp [mkFcmEnv, hnone]
    constructor
    · rw [sendPushNotification, hcfg]
      rfl
    · intro x hx
      rw [sendPushNotification, hcfg] at hx
      simp at hx

theorem credential_bootstrap_witness :
    (parseFirebaseCredential noParse id none none = none) ∧
    (sendPushNotification (mkFcmEnv noParse id (some "x") none okProvider false) argsDup =
       .error "Firebase messaging is not configured") :=
  ⟨(credential_bootstrap_and_not_configured noParse id none none).1 rfl,
   ((credential_bootstrap_and_not_configured noParse id (some "x") none).2.2.2
     rfl okProvider false argsDup).1⟩

/-- C7: for every offer-creation request whose persistence write succeeds the
HTTP response is 201 with the saved offer, independent of the notification
environment, the database contents and the clock — every failure inside
`queueOfferNotificationForOffer` is caught and never reaches the response. -/
theorem offer_creation_response_ignores_notification (env env2 : FcmEnv)
    (users users2 : List UserRec) (items items2 : List ItemRec)
    (offer : OfferRec) (now now2 : Nat) :
    (createOfferHandler env users items (.ok offer) now).2 =
      { status := 201, body := some offer } ∧
    (createOfferHandler env users items (.ok offer) now).2 =
      (createOfferHandler env2 users2 items2 (.ok offer) now2).2 :=
  ⟨rfl, rfl⟩

/-- Reducing the token-registration route on truthy inputs and a found user:
the user table becomes `updateFirst` of the registration update. -/
theorem registerTokenHandler_found (db : List UserRec) (uid tok : String)
    (devId : Option String) (now : Nat) (u : UserRec)
    (huid : ¬(uid = "")) (htok : ¬(tok = "")) (hfind : findUser db uid = some u) :
    (registerTokenHandler db (some uid) (some tok) devId now).1 =
      updateFirst (fun v => v.id = uid) (applyTokenRegistration tok devId now) db := by
  have h1 : truthy (some uid) = some uid := by simp [truthy, huid]
  have h2 : truthy (some tok) = some tok := by simp [truthy, htok]
  simp only [registerTokenHandler, h1, h2, hfind]

/-- After a successful registration the user looked up by id is the updated
user. -/
theorem findUser_register (db : List UserRec) (uid tok : String)
    (devId : Option String) (now : Nat) (u : UserRec)
    (huid : ¬(uid = "")) (htok : ¬(tok = "")) (hfind : findUser db uid = some u) :
    findUser (registerTokenHandler db (some uid) (some tok) devId now).1 uid =
      some (applyTokenRegistration tok devId now u) := by
  rw [registerTokenHandler_found db uid tok devId now u huid htok hfind]
  exact find?_updateFirst (fun (v : UserRec) => v.id = uid) (applyTokenRegistration tok devId now) (fun y => rfl) hfind

/-- C8: token registration is idempotent on the flat token set — registering
the same token twice leaves exactly one entry for it when it was absent — and
registering a second, different token under the same device id overwrites that
device's entry with the latest token while the flat token set retains both. -/
theorem token_registration_idempotent_and_rotation :
    (∀ (db : List UserRec) (uid tok : String) (devId : Option String)
       (now1 now2 : Nat) (u : UserRec),
       ¬(uid = "") → ¬(tok = "") → findUser db uid = some u → tok ∉ u.fcmTokens →
       (findUser (registerTokenHandler
           (registerTokenHandler db (some uid) (some tok) devId now1).1
           (some uid) (some tok) devId now2).1 uid).map
           (fun v => v.fcmTokens.count tok) = some 1) ∧
    (∀ (db : List UserRec) (uid t1 t2 d : String) (now1 now2 : Nat) (u : UserRec),
       ¬(uid = "") → ¬(t1 = "") → ¬(t2 = "") → ¬(d = "") → ¬(t1 = t2) →
       findUser db uid = some u → (∀ p ∈ u.deviceTokens, ¬(p.1 = d)) →
       ∃ v, findUser (registerTokenHandler
           (registerTokenHandler db (some uid) (some t1) (some d) now1).1
           (some uid) (some t2) (some d) now2).1 uid = some v ∧
         v.deviceTokens.filter (fun p => p.1 = d) = [(d, t2)] ∧
         t1 ∈ v.fcmTokens ∧ t2 ∈ v.fcmTokens) := by
  constructor
  · intro db uid tok devId now1 now2 u huid htok hfind hnot
    have hf1 := findUser_register db uid tok devId now1 u huid htok hfind
    have hf2 := findUser_register _ uid tok devId now2 _ huid htok hf1
    rw [hf2, Option.map_some']
    have hset : (applyTokenRegistration tok devId now2
        (applyTokenRegistration tok devId now1 u)).fcmTokens =
        addToSet (addToSet u.fcmTokens tok) tok := rfl
    rw [hset, addToSet_of_mem (mem_addToSet_self _ _),
      count_addToSet_of_not_mem hnot]
  · intro db uid t1 t2 d now1 now2 u huid h1 h2 hd hne hfind hnokey
    have hf1 := findUser_register db uid t1 (some d) now1 u huid h1 hfind
    have hf2 := findUser_register _ uid t2 (some d) now2 _ huid h2 hf1
    refine ⟨_, hf2, ?_, ?_, ?_⟩
    · have htd : truthy (some d) = some d := by simp [truthy, hd]
      have hdev : (applyTokenRegistration t2 (some d) now2
          (applyTokenRegistration t1 (some d) now1 u)).deviceTokens =
          assocSet (assocSet u.deviceTokens d t1) d t2 := by
        simp only [applyTokenRegistration, htd]
      rw [hdev, assocSet_of_no_key hnokey, assocSet_overwrite hnokey]
      exact filter_key_append_single hnokey
    · exact mem_addToSet_of_mem t2 (mem_addToSet_self u.fcmTokens t1)
    · exact mem_addToSet_self _ t2

theorem token_registration_witness :
    ((findUser (registerTokenHandler
        (registerTokenHandler [userAnn] (some "u1") (some "t9") none 1).1
        (some "u1") (some "t9") none 2).1 "u1").map
        (fun v => v.fcmTokens.count "t9") = some 1) ∧
    ((findUser (registerTokenHandler
        (registerTokenHandler [userAnn] (some "u1") (some "ta") (some "D1") 1).1
        (some "u1") (some "tb") (some "D1") 2).1 "u1").map
        (fun v => v.deviceTokens.filter (fun p => p.1 = "D1")) = some [("D1", "tb")]) ∧
    ((findUser (registerTokenHandler
        (registerTokenHandler [userAnn] (some "u1") (some "ta") (some "D1") 1).1
        (some "u1") (some "tb") (some "D1") 2).1 "u1").map
        (fun v => (v.fcmTokens.contains "ta", v.fcmTokens.contains "tb")) =
      some (true, true)) := by
  refine ⟨token_registration_idempotent_and_rotation.1 [userAnn] "u1" "t9" none 1 2 userAnn
     (by decide) (by decide) rfl (by decide), ?_, ?_⟩
  · obtain ⟨v, hv, hf, -, -⟩ :=
      token_registration_idempotent_and_rotation.2 [userAnn] "u1" "ta" "tb" "D1" 1 2 userAnn
        (by decide) (by decide) (by decide) (by decide) (by decide) rfl (by decide)
    rw [hv, Option.map_some', hf]
  · obtain ⟨v, hv, -, h1, h2⟩ :=
      token_registration_idempotent_and_rotation.2 [userAnn] "u1" "ta" "tb" "D1" 1 2 userAnn
        (by decide) (by decide) (by decide) (by decide) (by decide) rfl (by decide)
    have c1 : v.fcmTokens.contains "ta" = true := by simpa using h1
    have c2 : v.fcmTokens.contains "tb" = true := by simpa using h2
    rw [hv, Option.map_some', c1, c2]

/-- A sample available item. -/
def itemBike : ItemRec :=
  { id := "i1", name := "Bike", description := "red bike", category := "Sports"
    condition := "GOOD", images := [], ownerId := "u1", isAvailable := true
    createdAt := 0, updatedAt := 0 }

/-- C9: item deletion is a soft delete — the matched document stays present
with only `isAvailable` flipped to false and `updatedAt` set to now, every
other field and every other document unchanged — and a document with
`isAvailable = false` cannot appear in any item listing, whose members all
satisfy `isAvailable = true`. -/
theorem delete_item_soft_delete (db : List ItemRec) (itemId : String) (now : Nat)
    (x : ItemRec) (hfind : findItem db itemId = some x) :
    (deleteItemHandler db itemId now).1 =
      updateFirst (fun i => i.id = itemId) (markItemUnavailable now) db ∧
    findItem (deleteItemHandler db itemId now).1 itemId =
      some (markItemUnavailable now x) ∧
    ((markItemUnavailable now x).id = x.id ∧
     (markItemUnavailable now x).name = x.name ∧
     (markItemUnavailable now x).description = x.description ∧
     (markItemUnavailable now x).category = x.category ∧
     (markItemUnavailable now x).condition = x.condition ∧
     (markItemUnavailable now x).images = x.images ∧
     (markItemUnavailable now x).ownerId = x.ownerId ∧
     (markItemUnavailable now x).createdAt = x.createdAt ∧
     (markItemUnavailable now x).isAvailable = false ∧
     (markItemUnavailable now x).updatedAt = now) ∧
    (∀ it ∈ (deleteItemHandler db itemId now).1, ¬(it.id = itemId) → it ∈ db) ∧
    (∀ (category search ownerId : Option String) (page limit : Nat),
       ∀ it ∈ listItemsData (deleteItemHandler db itemId now).1 category search
           ownerId page limit, it.isAvailable = true) ∧
    (∀ (page limit : Nat),
       markItemUnavailable now x ∉
         listItemsData (deleteItemHandler db itemId now).1 none none none
           page limit) := by
  have hdb : (deleteItemHandler db itemId now).1 =
      updateFirst (fun i => i.id = itemId) (markItemUnavailable now) db := by
    rw [deleteItemHandler, hfind]
  have havail : ∀ (c s o : Option String) (pg lim : Nat),
      ∀ it ∈ listItemsData (deleteItemHandler db itemId now).1 c s o pg lim,
        it.isAvailable = true := by
    intro c s o pg lim it hit
    simp only [listItemsData] at hit
    have h1 := List.mem_of_mem_take hit
    have h2 := List.mem_of_mem_drop h1
    have h3 := List.mem_mergeSort.mp h2
    have h4 := (List.mem_filter.mp h3).2
    rw [itemMatchesQuery] at h4
    simp only [Bool.and_eq_true] at h4
    exact h4.1.1.1
  refine ⟨hdb, ?_, ⟨rfl, rfl, rfl, rfl, rfl, rfl, rfl, rfl, rfl, rfl⟩, ?_, havail, ?_⟩
  · rw [hdb]
    exact find?_updateFirst (fun (i : ItemRec) => i.id = itemId) (markItemUnavailable now) (fun y => rfl) hfind
  · intro it hit hne
    rw [hdb] at hit
    rcases mem_updateFirst hit with h | ⟨y, hy, hpy, heq⟩
    · exact h
    · exfalso
      apply hne
      rw [heq]
      show y.id = itemId
      simpa using hpy
  · intro pg lim hmem
    have := havail none none none pg lim _ hmem
    simp [markItemUnavailable] at this

theorem delete_item_soft_delete_witness :
    findItem (deleteItemHandler [itemBike] "i1" 5).1 "i1" =
      some (markItemUnavailable 5 itemBike) ∧
    markItemUnavailable 5 itemBike ∉
      listItemsData (deleteItemHandler [itemBike] "i1" 5).1 none none none 1 20 :=
  ⟨(delete_item_soft_delete [itemBike] "i1" 5 itemBike rfl).2.1,
   (delete_item_soft_delete [itemBike] "i1" 5 itemBike rfl).2.2.2.2.2 1 20⟩

/-- A batch list whose flat length is at most 500 forms a single chunk. -/
theorem chunk500_of_small {l : List String} (hn : l ≠ []) (hlen : l.length ≤ 500) :
    chunk500 l = [l] := by
  match l, hn with
  | t :: ts, _ =>
    rw [chunk500, List.take_of_length_le hlen, List.drop_eq_nil_of_le hlen, chunk500]

/-- A sample user holding two tokens. -/
def userTwoTokens : UserRec := { userAnn with fcmTokens := ["t1", "t2"] }

/-- C1: a per-recipient delivery failure with an unregistered-token error code
puts exactly that token into the returned `invalidTokens`, and after all
batches complete the token is pulled from the recipient's flat token set; a
failing pruning write leaves the database untouched and does not change the
dispatch result. -/
theorem invalid_token_collected_and_pruned (db : List UserRec) (a : NotifArgs)
    (now : Nat) (u : UserRec) (bad : String)
    (hfind : findUser db a.recipientUserId = some u)
    (hbad : bad ∈ u.fcmTokens) (hne : ¬(bad = "")) :
    (sendOfferNotification ⟨true, failOnProvider bad, false⟩ db a now).2.1 =
      .ok (.sent (aggregateResult (failOnProvider bad)
        (pushBatches (u.fcmTokens.filter (fun t => !(t = "")))))) ∧
    (aggregateResult (failOnProvider bad)
        (pushBatches (u.fcmTokens.filter (fun t => !(t = ""))))).invalidTokens = [bad] ∧
    (findUser (sendOfferNotification ⟨true, failOnProvider bad, false⟩ db a now).1
        a.recipientUserId).map (fun v => v.fcmTokens) =
      some (u.fcmTokens.filter (fun t => !([bad].contains t))) ∧
    bad ∉ u.fcmTokens.filter (fun t => !([bad].contains t)) ∧
    (sendOfferNotification ⟨true, failOnProvider bad, true⟩ db a now).2.1 =
      (sendOfferNotification ⟨true, failOnProvider bad, false⟩ db a now).2.1 ∧
    (sendOfferNotification ⟨true, failOnProvider bad, true⟩ db a now).1 = db := by
  have hmem : bad ∈ u.fcmTokens.filter (fun t => !(t = "")) :=
    List.mem_filter.mpr ⟨hbad, by simp [hne]⟩
  have hnonempty : (u.fcmTokens.filter (fun t => !(t = ""))).isEmpty = false := by
    cases h : (u.fcmTokens.filter (fun t => !(t = ""))).isEmpty
    · rfl
    · rw [List.isEmpty_iff] at h
      rw [h] at hmem
      simp at hmem
  have hinv : (aggregateResult (failOnProvider bad)
      (pushBatches (u.fcmTokens.filter (fun t => !(t = ""))))).invalidTokens = [bad] := by
    show ((pushBatches (u.fcmTokens.filter (fun t => !(t = "")))).map
      (fun b => collectInvalid b (failOnProvider bad b).responses)).flatten = [bad]
    rw [List.map_congr_left (fun b _ => collectInvalid_failOnProvider bad b)]
    rw [flatten_map_filter, pushBatches, chunk500_flatten]
    exact nodup_filter_eq_singleton (nodup_jsDedup _)
      (mem_jsDedup.mpr (List.mem_filter.mpr ⟨hmem, by simp [hne]⟩))
  have hsentOk := sendOfferNotification_sent ⟨true, failOnProvider bad, false⟩ db a now u
    hfind hnonempty rfl
  have hsentPF := sendOfferNotification_sent ⟨true, failOnProvider bad, true⟩ db a now u
    hfind hnonempty rfl
  have hinvne : ([bad] : List String).isEmpty = false := rfl
  refine ⟨?_, hinv, ?_, ?_, ?_, ?_⟩
  · rw [hsentOk]
  · rw [hsentOk]
    show (findUser (if (aggregateResult (failOnProvider bad)
        (pushBatches (u.fcmTokens.filter (fun t => !(t = ""))))).invalidTokens.isEmpty
        then db else removeInvalidTokens db false a.recipientUserId
          (aggregateResult (failOnProvider bad)
            (pushBatches (u.fcmTokens.filter (fun t => !(t = ""))))).invalidTokens now)
        a.recipientUserId).map (fun v => v.fcmTokens) = _
    rw [hinv, hinvne]
    simp only [Bool.false_eq_true, if_false, removeInvalidTokens, List.isEmpty_cons,
      Bool.false_eq_true, if_false]
    have hfu : findUser (updateFirst (fun (v : UserRec) => v.id = a.recipientUserId)
        (fun v => { v with
          fcmTokens := v.fcmTokens.filter (fun t => !(([bad] : List String).contains t))
          updatedAt := now }) db) a.recipientUserId =
        some { u with
          fcmTokens := u.fcmTokens.filter (fun t => !(([bad] : List String).contains t))
          updatedAt := now } :=
      find?_updateFirst (fun (v : UserRec) => v.id = a.recipientUserId)
        (fun v => { v with
          fcmTokens := v.fcmTokens.filter (fun t => !(([bad] : List String).contains t))
          updatedAt := now }) (fun y => rfl) hfind
    rw [hfu]
    rfl
  · simp [List.mem_filter]
  · rw [hsentOk, hsentPF]
  · rw [hsentPF]
    show (if (aggregateResult (failOnProvider bad)
        (pushBatches (u.fcmTokens.filter (fun t => !(t = ""))))).invalidTokens.isEmpty
        then db else removeInvalidTokens db true a.recipientUserId
          (aggregateResult (failOnProvider bad)
            (pushBatches (u.fcmTokens.filter (fun t => !(t = ""))))).invalidTokens now) = db
    rw [hinv, hinvne]
    simp only [Bool.false_eq_true, if_false, removeInvalidTokens, List.isEmpty_cons,
      if_true]

theorem invalid_token_collected_and_pruned_witness :
    ((aggregateResult (failOnProvider "t2")
       (pushBatches (userTwoTokens.fcmTokens.filter (fun t => !(t = ""))))).invalidTokens =
      ["t2"]) ∧
    ((findUser (sendOfferNotification ⟨true, failOnProvider "t2", false⟩ [userTwoTokens]
        argsOffer 7).1 argsOffer.recipientUserId).map (fun v => v.fcmTokens) =
      some (userTwoTokens.fcmTokens.filter (fun t => !(["t2"].contains t)))) ∧
    ((sendOfferNotification ⟨true, failOnProvider "t2", true⟩ [userTwoTokens]
        argsOffer 7).1 = [userTwoTokens]) :=
  ⟨(invalid_token_collected_and_pruned [userTwoTokens] argsOffer 7 userTwoTokens "t2"
      rfl (by decide) (by decide)).2.1,
   (invalid_token_collected_and_pruned [userTwoTokens] argsOffer 7 userTwoTokens "t2"
      rfl (by decide) (by decide)).2.2.1,
   (invalid_token_collected_and_pruned [userTwoTokens] argsOffer 7 userTwoTokens "t2"
      rfl (by decide) (by decide)).2.2.2.2.2⟩

/-- Offer-notification arguments whose message carries leading whitespace. -/
def argsSpacey : NotifArgs :=
  { offerId := "o1", recipientUserId := "u1", senderUserId := "u2"
    senderName := some "Bob", itemName := some "Bike", message := some " hi" }

set_option maxRecDepth 4000 in
/-- C4 counterexample: dispatching with the message `" hi"` produces a payload
whose body is the trimmed `"hi"`, not the raw message truncated to 140
characters, refuting the claim that the body equals the message truncated to
140 characters. -/
theorem offer_body_trims_counterexample :
    ((sendOfferNotification envOkW [userAnn] argsSpacey 0).2.2.map
       (fun m => m.notification.body) = ["hi"]) ∧
    ¬(("hi" : String) = jsTake " hi" 140) := by
  constructor
  · have hsent := sendOfferNotification_sent envOkW [userAnn] argsSpacey 0 userAnn rfl rfl rfl
    rw [hsent]
    have hb : pushBatches (userAnn.fcmTokens.filter (fun t => !(t = ""))) = [["t1"]] := by
      show pushBatches ["t1"] = [["t1"]]
      rw [pushBatches, show jsDedup ((["t1"] : List String).filter (fun t => !(t = ""))) =
        ["t1"] from rfl]
      exact chunk500_of_small (by simp) (by simp)
    show ((pushBatches (userAnn.fcmTokens.filter (fun t => !(t = "")))).map
      (buildMessage (offerPushArgs argsSpacey
        (userAnn.fcmTokens.filter (fun t => !(t = "")))))).map
      (fun m => m.notification.body) = ["hi"]
    rw [hb]
    rfl
  · decide

/-- C4 (amended): on every dispatched offer notification each batch payload
has title `"<senderName> sent you an offer"`, a body equal to the message
trimmed of surrounding whitespace and truncated to 140 characters — falling
back to `"New pitch on <itemName>"` when no message is given or the message
trims to the empty string — and the string-valued data map with the offer
metadata, `undefined`/`null` data values being coerced to `''`. -/
theorem offer_payload_contents (env : FcmEnv) (db : List UserRec) (a : NotifArgs)
    (now : Nat) (u : UserRec) (sName : String)
    (hfind : findUser db a.recipientUserId = some u)
    (hne : (u.fcmTokens.filter (fun t => !(t = ""))).isEmpty = false)
    (hcfg : env.configured = true)
    (hsn : a.senderName = some sName) (hsne : ¬(sName = "")) :
    ∀ m ∈ (sendOfferNotification env db a now).2.2,
      m.notification.title = sName ++ " sent you an offer" ∧
      (∀ msg, a.message = some msg → ¬(msg = "") → ¬(jsTake (jsTrim msg) 140 = "") →
        m.notification.body = jsTake (jsTrim msg) 140) ∧
      (∀ msg, a.message = some msg → jsTake (jsTrim msg) 140 = "" →
        m.notification.body = "New pitch on " ++ jsOr a.itemName "your listing") ∧
      (a.message = none →
        m.notification.body = "New pitch on " ++ jsOr a.itemName "your listing") ∧
      m.data = [("type", "offer"), ("offerId", a.offerId),
                ("senderUserId", a.senderUserId), ("senderName", sName),
                ("recipientUserId", a.recipientUserId),
                ("itemName", jsOr a.itemName ""), ("message", jsOr a.message "")] ∧
      jsValToString JsVal.undef = "" ∧ jsValToString JsVal.nullv = "" := by
  intro m hm
  have hsent := sendOfferNotification_sent env db a now u hfind hne hcfg
  rw [hsent] at hm
  simp only [] at hm
  rcases List.mem_map.mp hm with ⟨b, hb, hmb⟩
  subst hmb
  refine ⟨?_, ?_, ?_, ?_, ?_, rfl, rfl⟩
  · show (offerPushArgs a (u.fcmTokens.filter (fun t => !(t = "")))).notification.title = _
    simp [offerPushArgs, jsOr, hsn, hsne]
  · intro msg hmsg hne1 hne2
    show offerBody a.message a.itemName = _
    rw [hmsg, offerBody]
    simp [hne1, hne2]
  · intro msg hmsg hz
    show offerBody a.message a.itemName = _
    rw [hmsg, offerBody]
    by_cases hmz : msg = ""
    · simp [hmz]
    · simp [hmz, hz]
  · intro hnone
    show offerBody a.message a.itemName = _
    rw [hnone, offerBody]
  · show buildDataPayload (offerPushArgs a (u.fcmTokens.filter (fun t => !(t = "")))).data = _
    simp [offerPushArgs, buildDataPayload, jsValToString, jsOr, hsn, hsne]

theorem offer_payload_contents_witness :
    ((buildMessage (offerPushArgs argsOffer (userAnn.fcmTokens.filter (fun t => !(t = ""))))
        ["t1"]).notification.title = "Bob" ++ " sent you an offer") ∧
    ((buildMessage (offerPushArgs argsOffer (userAnn.fcmTokens.filter (fun t => !(t = ""))))
        ["t1"]).notification.body = jsTake (jsTrim "hi") 140) ∧
    ((buildMessage (offerPushArgs argsOffer (userAnn.fcmTokens.filter (fun t => !(t = ""))))
        ["t1"]).data =
      [("type", "offer"), ("offerId", argsOffer.offerId),
       ("senderUserId", argsOffer.senderUserId), ("senderName", "Bob"),
       ("recipientUserId", argsOffer.recipientUserId),
       ("itemName", jsOr argsOffer.itemName ""),
       ("message", jsOr argsOffer.message "")]) := by
  have hb : pushBatches (userAnn.fcmTokens.filter (fun t => !(t = ""))) = [["t1"]] := by
    show pushBatches ["t1"] = [["t1"]]
    rw [pushBatches, show jsDedup ((["t1"] : List String).filter (fun t => !(t = ""))) =
      ["t1"] from rfl]
    exact chunk500_of_small (by simp) (by simp)
  have hmem : buildMessage (offerPushArgs argsOffer
      (userAnn.fcmTokens.filter (fun t => !(t = "")))) ["t1"] ∈
      (sendOfferNotification envOkW [userAnn] argsOffer 0).2.2 := by
    rw [sendOfferNotification_sent envOkW [userAnn] argsOffer 0 userAnn rfl rfl rfl]
    show _ ∈ (pushBatches (userAnn.fcmTokens.filter (fun t => !(t = "")))).map
      (buildMessage (offerPushArgs argsOffer
        (userAnn.fcmTokens.filter (fun t => !(t = "")))))
    rw [hb]
    exact List.mem_map.mpr ⟨["t1"], by simp, rfl⟩
  have h := offer_payload_contents envOkW [userAnn] argsOffer 0 userAnn "Bob" rfl rfl rfl
    rfl (by decide) _ hmem
  exact ⟨h.1, h.2.1 "hi" rfl (by decide) (by decide), h.2.2.2.2.1⟩

end SwopTrader
